import Mathlib

/-!
Verification development for the `homosphere` VPC subnet planner
(`src/homosphere/ec2.py`).

The algorithmic core of the repository is the subnet-sizing and
subnet-allocation logic of the `VPC` class:

* `nearest_power_of_2` (ec2.py lines 24-26),
* `VPC.get_availability_zones` (lines 100-107),
* `VPC.calculate_subnet_prefixlen` (lines 109-124),
* `VPC.create_public_subnet` (lines 143-205),
* `VPC.create_private_subnet` (lines 207-260),
* `VPC.create_subnets` (lines 262-273).

The embedding below translates that code into pure Lean functions.
Python exceptions become an explicit error type, the mutable fields of
`self.data` that the planner reads and writes become an explicit state
record, and the boto3 availability-zone query becomes a deterministic
oracle passed in as an argument.  `math.log(n, 2)` is modelled as the
exact real logarithm (so `ceil(log(n, 2))` becomes `Nat.clog 2 n`,
realised here by the structurally recursive `ceilLog2`); Python float
true division of two powers of two is modelled as exact rational
division, which coincides with binary floating point on every value the
planner can produce.
-/

deriving instance DecidableEq for Except

/-- The Python exceptions the planner can raise, as an explicit error type.
`mathDomainError` is `ValueError: math domain error` from `math.log(0, 2)`;
`networkTooSmall` is the `Exception("Provided network is too small ...")`
raised at ec2.py lines 122-123; `stopIteration` is exhaustion of the
`subnets` generator by `next()` in `create_subnets`; the last two are the
exceptions raised by `create_private_subnet` at lines 210-215. -/
inductive PyError where
  | mathDomainError : PyError
  | networkTooSmall : PyError
  | stopIteration : PyError
  | missingPublicSubnet : String → PyError
  | missingNatGateway : String → PyError
deriving DecidableEq

/-- `ipaddress.IPv4Network`: a network address (an integer below `2^32`)
together with a prefix length. -/
structure IPv4Network where
  address : Nat
  prefixlen : Nat
deriving DecidableEq

instance : Inhabited IPv4Network := ⟨⟨0, 0⟩⟩

/-- Validity invariant maintained by `ipaddress.IPv4Network`: the prefix
length is at most 32, the address fits in 32 bits, and the host bits of
the network address are zero. -/
def IPv4Network.valid (n : IPv4Network) : Prop :=
  n.prefixlen ≤ 32 ∧ n.address < 2 ^ 32 ∧ n.address % 2 ^ (32 - n.prefixlen) = 0

instance (n : IPv4Network) : Decidable n.valid := by
  unfold IPv4Network.valid; infer_instance

/-- `IPv4Network.num_addresses`: the number of addresses in the block,
`2^(32 - prefixlen)`. -/
def IPv4Network.num_addresses (n : IPv4Network) : Nat :=
  2 ^ (32 - n.prefixlen)

/-- The full list produced by the generator `parent.subnets(new_prefix=q)`:
the `2^(q - parent.prefixlen)` consecutive child blocks of `parent` at
prefix length `q`, in increasing address order.  (The generator raises
`ValueError` when `q < parent.prefixlen`, a case no operation modelled
here reaches with a nonempty zone list; all uses below have
`q ≥ parent.prefixlen`.) -/
def IPv4Network.subnetList (parent : IPv4Network) (q : Nat) : List IPv4Network :=
  (List.range (2 ^ (q - parent.prefixlen))).map
    (fun i => ⟨parent.address + i * 2 ^ (32 - q), q⟩)

/-- `next(parent.subnets(new_prefix=q))`: the first child block, which is
the parent's base address at the new prefix length. -/
def IPv4Network.firstSubnet (parent : IPv4Network) (q : Nat) : IPv4Network :=
  ⟨parent.address, q⟩

/-- Two networks occupy disjoint address ranges. -/
def disjointNets (a b : IPv4Network) : Prop :=
  a.address + a.num_addresses ≤ b.address ∨ b.address + b.num_addresses ≤ a.address

instance (a b : IPv4Network) : Decidable (disjointNets a b) := by
  unfold disjointNets; infer_instance

/-- The address range of `child` lies inside the address range of `parent`. -/
def IPv4Network.contains (parent child : IPv4Network) : Prop :=
  parent.address ≤ child.address ∧
    child.address + child.num_addresses ≤ parent.address + parent.num_addresses

instance (p c : IPv4Network) : Decidable (p.contains c) := by
  unfold IPv4Network.contains; infer_instance

/-- Structural-recursion helper computing `ceil(log2 n)` (0 for `n ≤ 1`);
the fuel argument bounds the recursion depth.  Agrees with `Nat.clog 2`
(proved below) and, unlike `Nat.clog`, evaluates by kernel reduction. -/
def ceilLog2Aux : Nat → Nat → Nat
  | 0, _ => 0
  | fuel + 1, n => if n ≤ 1 then 0 else ceilLog2Aux fuel ((n + 1) / 2) + 1

/-- `ceil(log(n, 2))` for positive `n`, with `math.log` modelled as the
exact real logarithm. -/
def ceilLog2 (n : Nat) : Nat :=
  ceilLog2Aux n n

/-- `nearest_power_of_2(number)` (ec2.py lines 24-26):
`int(pow(2, ceil(log(number, 2))))`.  `math.log(0, 2)` raises
`ValueError: math domain error`. -/
def nearest_power_of_2 (number : Nat) : Except PyError Nat :=
  if number = 0 then .error .mathDomainError
  else .ok (2 ^ ceilLog2 number)

/-- Python `range(a, b)`: the list `[a, a+1, ..., b-1]` (empty when `a ≥ b`). -/
def pyRange (a b : Nat) : List Nat :=
  List.range' a (b - a)

/-- Python `list.index(x)`: the index of the first occurrence of `x`, or
`none` (the code's `ValueError`) when `x` does not occur. -/
def pyIndex : List ℚ → ℚ → Option Nat
  | [], _ => none
  | y :: ys, x => if y = x then some 0 else (pyIndex ys x).map (· + 1)

/-- `VPC.calculate_subnet_prefixlen` (ec2.py lines 109-124), as a pure
function of the parent network and the (already fetched) availability-zone
list.  `num_of_zones = len(zones) * 2`; `nearest = nearest_power_of_2(...)`;
`subnets` holds the first child at every candidate prefix in
`range(parent.prefixlen + 1, 29)`; `subnet_hosts` their address counts;
`required_addresses = parent.num_addresses / nearest` (float true division,
modelled as exact rational division); the subnet whose host count equals
`required_addresses` is selected by `list.index`, and its prefix length is
returned (stored into `self.data['Subnet Prefixlen']` by the stateful
wrapper below); a failed `index` lookup raises the "network is too small"
exception. -/
def calculate_subnet_prefixlen (parent : IPv4Network) (zones : List String) :
    Except PyError Nat :=
  let num_of_zones := zones.length * 2
  match nearest_power_of_2 num_of_zones with
  | .error e => .error e
  | .ok nearest =>
    let prefixes := pyRange (parent.prefixlen + 1) 29
    let subnets := prefixes.map parent.firstSubnet
    let subnet_hosts := subnets.map (fun s => (s.num_addresses : ℚ))
    let required_addresses : ℚ := (parent.num_addresses : ℚ) / (nearest : ℚ)
    match pyIndex subnet_hosts required_addresses with
    | none => .error .networkTooSmall
    | some i => .ok (subnets.getD i default).prefixlen

/-- The fields of `self.data` that the subnet planner reads and writes:
`self.data['IPv4Network']`, `self.data['Availability Zones']` (initially
`[]`), and `self.data['Subnet Prefixlen']` (initially `0`). -/
structure VPCState where
  ipv4Network : IPv4Network
  availabilityZones : List String
  subnetPrefixlen : Nat
deriving DecidableEq

/-- `VPC.get_availability_zones` (ec2.py lines 100-107).  `fetch` is the
deterministic result of the boto3 `describe_availability_zones` query for
the session's region; the returned flag records whether the query was
actually issued.  The query runs only when the cached list is empty. -/
def get_availability_zones (fetch : List String) (s : VPCState) :
    VPCState × Bool :=
  if s.availabilityZones = [] then
    ({ s with availabilityZones := fetch }, true)
  else
    (s, false)

/-- `VPC.calculate_subnet_prefixlen` as a state transformer: it first
refetches the availability zones when the cached list is empty (lines
111-112), then computes the prefix length from the current network and
zone list and stores it in `self.data['Subnet Prefixlen']` (line 124). -/
def calculate_subnet_prefixlen_state (fetch : List String) (s : VPCState) :
    Except PyError VPCState :=
  let s1 := (get_availability_zones fetch s).1
  match calculate_subnet_prefixlen s1.ipv4Network s1.availabilityZones with
  | .error e => .error e
  | .ok p => .ok { s1 with subnetPrefixlen := p }

/-- The entry `self.network['Subnets'][zone]['Public']` as far as
`create_private_subnet` inspects it: the assigned network and the
`'NatGateway'` key (the NAT gateway resource title, when present). -/
structure PublicSubnetData where
  subnet : IPv4Network
  natGateway : Option String
deriving DecidableEq

/-- The entry `self.network['Subnets'][zone]['Private']` as far as the
claims concern it: the assigned network and the NAT gateway reference
used for the private default route. -/
structure PrivateSubnetData where
  subnet : IPv4Network
  natGatewayRef : String
deriving DecidableEq

/-- `VPC.create_public_subnet` (ec2.py lines 143-205), reduced to the
planner-relevant effect: it records the assigned network and always
creates a NAT gateway (titled `zone_title + 'NATGateway'`) in the zone's
`'Public'` entry.  (Template resource construction, tags, route tables and
outputs are cloud-schema glue outside the claims.) -/
def create_public_subnet (zone : String) (ip_network : IPv4Network) :
    PublicSubnetData :=
  ⟨ip_network, some (zone ++ "NATGateway")⟩

/-- `VPC.create_private_subnet` (ec2.py lines 207-260), planner-relevant
part.  It first checks that the zone's `'Public'` entry exists (lines
209-211) and then that it holds a `'NatGateway'` key (lines 212-215),
raising an exception and constructing nothing otherwise; on success it
records the assigned network with its default route anchored to the
public subnet's NAT gateway. -/
def create_private_subnet (zone : String) (publicEntry : Option PublicSubnetData)
    (ip_network : IPv4Network) : Except PyError PrivateSubnetData :=
  match publicEntry with
  | none => .error (.missingPublicSubnet zone)
  | some pub =>
    match pub.natGateway with
    | none => .error (.missingNatGateway zone)
    | some ngw => .ok ⟨ip_network, ngw⟩

/-- One zone's slot in the Subnet Plan: `self.network['Subnets'][zone]`. -/
structure ZonePlan where
  zone : String
  publicData : PublicSubnetData
  privateData : PrivateSubnetData
deriving DecidableEq

/-- All networks assigned by a Subnet Plan, in assignment order:
zone 0's public, zone 0's private, zone 1's public, ... -/
def planNets : List ZonePlan → List IPv4Network
  | [] => []
  | zp :: rest => zp.publicData.subnet :: zp.privateData.subnet :: planNets rest

/-- The loop of `VPC.create_subnets` (ec2.py lines 270-273): iterate the
zones in order, taking for each zone the next unused child network for the
public subnet and the next one after it for the private subnet.
`children` is the not-yet-consumed suffix of the child-network sequence;
`next()` on an exhausted sequence raises `StopIteration`. -/
def assignZones : List String → List IPv4Network → Except PyError (List ZonePlan)
  | [], _ => .ok []
  | _ :: _, [] => .error .stopIteration
  | _ :: _, [_] => .error .stopIteration
  | zone :: rest, pubNet :: privNet :: children =>
    let pub := create_public_subnet zone pubNet
    match create_private_subnet zone (some pub) privNet with
    | .error e => .error e
    | .ok priv =>
      match assignZones rest children with
      | .error e => .error e
      | .ok plans => .ok (⟨zone, pub, priv⟩ :: plans)

/-- `VPC.create_subnets` (ec2.py lines 262-273).  It fetches the
availability zones (at most once — line 264), recomputes the subnet
prefix length only when none has been established yet (lines 265-266),
generates the child networks of the parent at that prefix length (lines
268-269) and assigns them to the zones in order (lines 270-273).  The two
boolean components report whether the availability-zone query was issued
and whether the prefix length was recomputed. -/
def create_subnets (fetch : List String) (s : VPCState) :
    Except PyError (VPCState × List ZonePlan) × Bool × Bool :=
  let fetched := get_availability_zones fetch s
  let s1 := fetched.1
  let stateResult :=
    if s1.subnetPrefixlen = 0
    then (calculate_subnet_prefixlen_state fetch s1, true)
    else (.ok s1, false)
  match stateResult with
  | (.error e, recomputed) => (.error e, fetched.2, recomputed)
  | (.ok s2, recomputed) =>
    let children := s2.ipv4Network.subnetList s2.subnetPrefixlen
    match assignZones s2.availabilityZones children with
    | .error e => (.error e, fetched.2, recomputed)
    | .ok plans => (.ok (s2, plans), fetched.2, recomputed)

/-! ### Helper lemmas about the embedded primitives -/

lemma ceilLog2Aux_eq_clog : ∀ fuel n, n ≤ fuel → ceilLog2Aux fuel n = Nat.clog 2 n := by
  intro fuel
  induction fuel with
  | zero =>
    intro n hn
    have hn0 : n = 0 := Nat.le_zero.mp hn
    subst hn0
    simp [ceilLog2Aux, Nat.clog_of_right_le_one]
  | succ f ih =>
    intro n hn
    by_cases h1 : n ≤ 1
    · simp [ceilLog2Aux, h1, Nat.clog_of_right_le_one h1]
    · have h2 : 2 ≤ n := by omega
      have step : ceilLog2Aux (f + 1) n = ceilLog2Aux f ((n + 1) / 2) + 1 := by
        simp [ceilLog2Aux, h1]
      rw [step, ih ((n + 1) / 2) (by omega), Nat.clog_of_two_le (by norm_num) h2]
      norm_num

lemma ceilLog2_eq_clog (n : Nat) : ceilLog2 n = Nat.clog 2 n :=
  ceilLog2Aux_eq_clog n n le_rfl

lemma le_pow_ceilLog2_iff {n m : Nat} : n ≤ 2 ^ m ↔ ceilLog2 n ≤ m := by
  rw [ceilLog2_eq_clog]
  exact Nat.le_pow_iff_clog_le (by norm_num)

lemma le_pow_ceilLog2 (n : Nat) : n ≤ 2 ^ ceilLog2 n :=
  le_pow_ceilLog2_iff.mpr le_rfl

lemma ceilLog2_pos {n : Nat} (hn : 2 ≤ n) : 1 ≤ ceilLog2 n := by
  rw [ceilLog2_eq_clog]
  exact Nat.clog_pos (by norm_num) hn

lemma pyIndex_eq_some {xs : List ℚ} {x : ℚ} {i : Nat} (h : pyIndex xs x = some i) :
    ∃ hi : i < xs.length, xs.get ⟨i, hi⟩ = x := by
  induction xs generalizing i with
  | nil => simp [pyIndex] at h
  | cons y ys ih =>
    by_cases hy : y = x
    · simp only [pyIndex, if_pos hy] at h
      cases h
      exact ⟨Nat.succ_pos _, hy⟩
    · simp [pyIndex, hy] at h
      obtain ⟨j, hj, rfl⟩ := h
      obtain ⟨hlt, hget⟩ := ih hj
      exact ⟨by simpa using Nat.succ_lt_succ hlt, by simpa using hget⟩

lemma pyIndex_of_first {xs : List ℚ} {x : ℚ} {i : Nat} (hi : i < xs.length)
    (hx : xs.get ⟨i, hi⟩ = x)
    (hfirst : ∀ j (hj : j < xs.length), j < i → xs.get ⟨j, hj⟩ ≠ x) :
    pyIndex xs x = some i := by
  induction xs generalizing i with
  | nil => simp at hi
  | cons y ys ih =>
    cases i with
    | zero =>
      have : y = x := hx
      simp [pyIndex, this]
    | succ n =>
      have hy : y ≠ x := hfirst 0 (by simp) (Nat.succ_pos n)
      have hn : n < ys.length := by simpa using hi
      have hget : ys.get ⟨n, hn⟩ = x := by simpa using hx
      have hrec : pyIndex ys x = some n :=
        ih hn hget (fun j hj hji =>
          hfirst (j + 1) (by simpa using Nat.succ_lt_succ hj) (by omega))
      simp [pyIndex, hy, hrec]

lemma pyIndex_eq_none {xs : List ℚ} {x : ℚ} (h : x ∉ xs) : pyIndex xs x = none := by
  induction xs with
  | nil => simp [pyIndex]
  | cons y ys ih =>
    have hy : y ≠ x := fun hyx => h (hyx ▸ List.mem_cons_self y ys)
    have hys : x ∉ ys := fun hm => h (List.mem_cons_of_mem y hm)
    simp [pyIndex, hy, ih hys]

lemma qpow_div_iff (a b c : Nat) :
    (((2 ^ a : Nat) : ℚ) = ((2 ^ b : Nat) : ℚ) / ((2 ^ c : Nat) : ℚ)) ↔ a + c = b := by
  rw [eq_div_iff (by positivity)]
  rw [show ((2 ^ a : Nat) : ℚ) * ((2 ^ c : Nat) : ℚ) = ((2 ^ (a + c) : Nat) : ℚ) by
    push_cast
    ring]
  constructor
  · intro h
    exact Nat.pow_right_injective (by norm_num) (Nat.cast_injective h)
  · intro h
    rw [h]

lemma pyIndex_map_powers (P k : Nat) (hP : P ≤ 32) (hk : 1 ≤ k) :
    pyIndex ((pyRange (P + 1) 29).map (fun q => ((2 ^ (32 - q) : Nat) : ℚ)))
        (((2 ^ (32 - P) : Nat) : ℚ) / ((2 ^ k : Nat) : ℚ)) =
      if P + k ≤ 28 then some (k - 1) else none := by
  by_cases hc : P + k ≤ 28
  · rw [if_pos hc]
    have hik : k - 1 <
        ((pyRange (P + 1) 29).map (fun q => ((2 ^ (32 - q) : Nat) : ℚ))).length := by
      simp [pyRange, List.length_range']
      omega
    apply pyIndex_of_first hik
    · rw [List.get_eq_getElem, List.getElem_map]
      simp only [pyRange]
      rw [List.getElem_range']
      have harith : P + 1 + 1 * (k - 1) = P + k := by omega
      rw [harith]
      exact (qpow_div_iff _ _ _).mpr (by omega)
    · intro j hj hji
      rw [List.get_eq_getElem, List.getElem_map]
      simp only [pyRange]
      rw [List.getElem_range']
      intro heq
      have hlen : j < 29 - (P + 1) := by
        simpa [pyRange, List.length_range'] using hj
      have := (qpow_div_iff (32 - (P + 1 + 1 * j)) (32 - P) k).mp heq
      omega
  · rw [if_neg hc]
    apply pyIndex_eq_none
    intro hmem
    rw [List.mem_map] at hmem
    obtain ⟨q, hq, heq⟩ := hmem
    simp only [pyRange] at hq
    rw [List.mem_range'] at hq
    obtain ⟨i, hi, rfl⟩ := hq
    have := (qpow_div_iff (32 - (P + 1 + 1 * i)) (32 - P) k).mp heq
    omega

lemma calculate_subnet_prefixlen_eq (parent : IPv4Network) (zones : List String)
    (hP : parent.prefixlen ≤ 32) (hz : 1 ≤ zones.length) :
    calculate_subnet_prefixlen parent zones =
      if parent.prefixlen + ceilLog2 (zones.length * 2) ≤ 28 then
        Except.ok (parent.prefixlen + ceilLog2 (zones.length * 2))
      else Except.error PyError.networkTooSmall := by
  have hk : 1 ≤ ceilLog2 (zones.length * 2) := ceilLog2_pos (by omega)
  have h1 : nearest_power_of_2 (zones.length * 2) =
      Except.ok (2 ^ ceilLog2 (zones.length * 2)) := by
    unfold nearest_power_of_2
    rw [if_neg (by omega : ¬ zones.length * 2 = 0)]
  have hcomp :
      ((pyRange (parent.prefixlen + 1) 29).map parent.firstSubnet).map
          (fun s => (s.num_addresses : ℚ)) =
        (pyRange (parent.prefixlen + 1) 29).map
          (fun q => ((2 ^ (32 - q) : Nat) : ℚ)) := by
    rw [List.map_map]
    rfl
  simp only [calculate_subnet_prefixlen, h1]
  rw [hcomp]
  rw [show (parent.num_addresses : ℚ) = ((2 ^ (32 - parent.prefixlen) : Nat) : ℚ) from rfl]
  rw [show ((2 ^ ceilLog2 (zones.length * 2) : Nat) : ℚ) =
      ((2 ^ ceilLog2 (zones.length * 2) : Nat) : ℚ) from rfl]
  rw [pyIndex_map_powers parent.prefixlen (ceilLog2 (zones.length * 2)) hP hk]
  by_cases hc : parent.prefixlen + ceilLog2 (zones.length * 2) ≤ 28
  · rw [if_pos hc, if_pos hc]
    show Except.ok (((pyRange (parent.prefixlen + 1) 29).map parent.firstSubnet).getD
        (ceilLog2 (zones.length * 2) - 1) default).prefixlen =
      Except.ok (parent.prefixlen + ceilLog2 (zones.length * 2))
    have hlt : ceilLog2 (zones.length * 2) - 1 <
        ((pyRange (parent.prefixlen + 1) 29).map parent.firstSubnet).length := by
      simp [pyRange, List.length_range']
      omega
    rw [List.getD_eq_getElem?_getD, List.getElem?_eq_getElem hlt, Option.getD_some,
      List.getElem_map]
    simp only [pyRange]
    rw [List.getElem_range']
    have harith : parent.prefixlen + 1 + 1 * (ceilLog2 (zones.length * 2) - 1) =
        parent.prefixlen + ceilLog2 (zones.length * 2) := by omega
    rw [harith]
    rfl
  · rw [if_neg hc, if_neg hc]

lemma assignZones_ok {zones : List String} {children : List IPv4Network}
    {plans : List ZonePlan} (h : assignZones zones children = .ok plans) :
    plans.map ZonePlan.zone = zones ∧
    planNets plans = children.take (2 * zones.length) ∧
    2 * zones.length ≤ children.length := by
  induction zones generalizing children plans with
  | nil =>
    cases h
    simp [planNets]
  | cons z rest ih =>
    match children with
    | [] => simp [assignZones] at h
    | [c] => simp [assignZones] at h
    | pubNet :: privNet :: cs =>
      simp only [assignZones, create_public_subnet, create_private_subnet] at h
      cases hrec : assignZones rest cs with
      | error e => rw [hrec] at h; cases h
      | ok plans' =>
        rw [hrec] at h
        cases h
        obtain ⟨h1, h2, h3⟩ := ih hrec
        refine ⟨by simp [h1], ?_, by simp; omega⟩
        have harith : 2 * (rest.length + 1) = 2 * rest.length + 1 + 1 := by ring
        simp only [List.length_cons, harith, List.take_succ_cons]
        simp [planNets, h2]

lemma subnetList_length (parent : IPv4Network) (q : Nat) :
    (parent.subnetList q).length = 2 ^ (q - parent.prefixlen) := by
  simp [IPv4Network.subnetList]

lemma subnetList_pairwise (parent : IPv4Network) (q : Nat) :
    (parent.subnetList q).Pairwise
      (fun a b => a.address + a.num_addresses ≤ b.address) := by
  unfold IPv4Network.subnetList
  rw [List.pairwise_map]
  apply (List.pairwise_lt_range _).imp
  intro i j hij
  simp only [IPv4Network.num_addresses]
  have h2 : i * 2 ^ (32 - q) + 2 ^ (32 - q) ≤ j * 2 ^ (32 - q) := by
    calc i * 2 ^ (32 - q) + 2 ^ (32 - q) = (i + 1) * 2 ^ (32 - q) := by ring
    _ ≤ j * 2 ^ (32 - q) := Nat.mul_le_mul_right _ hij
  omega

lemma subnetList_mem {parent : IPv4Network} {q : Nat} {c : IPv4Network}
    (h : c ∈ parent.subnetList q) :
    c.prefixlen = q ∧ ∃ i < 2 ^ (q - parent.prefixlen),
      c.address = parent.address + i * 2 ^ (32 - q) := by
  unfold IPv4Network.subnetList at h
  rw [List.mem_map] at h
  obtain ⟨i, hi, rfl⟩ := h
  rw [List.mem_range] at hi
  exact ⟨rfl, i, hi, rfl⟩

lemma subnetList_contained {parent : IPv4Network} {q : Nat}
    (hq1 : parent.prefixlen ≤ q) (hq2 : q ≤ 32) :
    ∀ c ∈ parent.subnetList q, parent.contains c := by
  intro c hc
  obtain ⟨hpl, i, hi, haddr⟩ := subnetList_mem hc
  constructor
  · rw [haddr]
    omega
  · rw [haddr, IPv4Network.num_addresses, IPv4Network.num_addresses, hpl]
    have h1 : (i + 1) * 2 ^ (32 - q) ≤ 2 ^ (q - parent.prefixlen) * 2 ^ (32 - q) :=
      Nat.mul_le_mul_right _ hi
    have h2 : 2 ^ (q - parent.prefixlen) * 2 ^ (32 - q) = 2 ^ (32 - parent.prefixlen) := by
      rw [← pow_add]
      congr 1
      omega
    have h3 : i * 2 ^ (32 - q) + 2 ^ (32 - q) ≤ 2 ^ (32 - parent.prefixlen) := by
      calc i * 2 ^ (32 - q) + 2 ^ (32 - q) = (i + 1) * 2 ^ (32 - q) := by ring
      _ ≤ 2 ^ (q - parent.prefixlen) * 2 ^ (32 - q) := h1
      _ = 2 ^ (32 - parent.prefixlen) := h2
    omega

lemma get_availability_zones_network (fetch : List String) (s : VPCState) :
    (get_availability_zones fetch s).1.ipv4Network = s.ipv4Network := by
  unfold get_availability_zones
  split <;> rfl

lemma get_availability_zones_prefixlen (fetch : List String) (s : VPCState) :
    (get_availability_zones fetch s).1.subnetPrefixlen = s.subnetPrefixlen := by
  unfold get_availability_zones
  split <;> rfl

lemma get_availability_zones_fst_idem (fetch : List String) (s : VPCState) :
    (get_availability_zones fetch (get_availability_zones fetch s).1).1 =
      (get_availability_zones fetch s).1 := by
  unfold get_availability_zones
  by_cases h : s.availabilityZones = []
  · by_cases hf : fetch = []
    · simp [h, hf]
    · simp [h, hf]
  · simp [h]

lemma calculate_state_ok {fetch : List String} {s s2 : VPCState}
    (h : calculate_subnet_prefixlen_state fetch s = .ok s2) :
    ∃ p, calculate_subnet_prefixlen (get_availability_zones fetch s).1.ipv4Network
          (get_availability_zones fetch s).1.availabilityZones = .ok p ∧
      s2 = { (get_availability_zones fetch s).1 with subnetPrefixlen := p } := by
  simp only [calculate_subnet_prefixlen_state] at h
  split at h
  · cases h
  · cases h
    rename_i p heq
    exact ⟨p, heq, rfl⟩

lemma calculate_ok_zones_nonempty {parent : IPv4Network} {zones : List String} {p : Nat}
    (h : calculate_subnet_prefixlen parent zones = .ok p) : zones ≠ [] := by
  intro hz
  subst hz
  simp [calculate_subnet_prefixlen, nearest_power_of_2] at h

lemma calculate_ok_bounds {parent : IPv4Network} {zones : List String} {p : Nat}
    (hP : parent.prefixlen ≤ 32) (hz : 1 ≤ zones.length)
    (h : calculate_subnet_prefixlen parent zones = .ok p) :
    p = parent.prefixlen + ceilLog2 (zones.length * 2) ∧
      parent.prefixlen < p ∧ p ≤ 28 := by
  rw [calculate_subnet_prefixlen_eq parent zones hP hz] at h
  by_cases hc : parent.prefixlen + ceilLog2 (zones.length * 2) ≤ 28
  · rw [if_pos hc] at h
    cases h
    have hk := ceilLog2_pos (show 2 ≤ zones.length * 2 by omega)
    exact ⟨rfl, by omega, hc⟩
  · rw [if_neg hc] at h
    cases h

lemma create_subnets_ok {fetch : List String} {s s2 : VPCState}
    {plans : List ZonePlan} {q r : Bool}
    (hval : s.ipv4Network.valid) (h0 : s.subnetPrefixlen = 0)
    (h : create_subnets fetch s = (.ok (s2, plans), q, r)) :
    s2.ipv4Network = s.ipv4Network ∧
    1 ≤ s2.availabilityZones.length ∧
    s2.availabilityZones = (get_availability_zones fetch s).1.availabilityZones ∧
    s2.subnetPrefixlen =
      s.ipv4Network.prefixlen + ceilLog2 (s2.availabilityZones.length * 2) ∧
    s.ipv4Network.prefixlen < s2.subnetPrefixlen ∧ s2.subnetPrefixlen ≤ 28 ∧
    assignZones s2.availabilityZones
      (s.ipv4Network.subnetList s2.subnetPrefixlen) = .ok plans := by
  simp only [create_subnets] at h
  rw [if_pos (by rw [get_availability_zones_prefixlen, h0])] at h
  cases hcs : calculate_subnet_prefixlen_state fetch (get_availability_zones fetch s).1 with
  | error e =>
    rw [hcs] at h
    cases h
  | ok s2' =>
    rw [hcs] at h
    dsimp only at h
    obtain ⟨p, hcalc, hs2'⟩ := calculate_state_ok hcs
    rw [get_availability_zones_fst_idem] at hs2'
    rw [get_availability_zones_fst_idem] at hcalc
    rw [get_availability_zones_network] at hcalc
    have hnet : s2'.ipv4Network = s.ipv4Network := by
      rw [hs2', get_availability_zones_network]
    have hazs : s2'.availabilityZones = (get_availability_zones fetch s).1.availabilityZones := by
      rw [hs2']
    have hzne : (get_availability_zones fetch s).1.availabilityZones ≠ [] :=
      calculate_ok_zones_nonempty hcalc
    have hzlen : 1 ≤ (get_availability_zones fetch s).1.availabilityZones.length := by
      cases hz : (get_availability_zones fetch s).1.availabilityZones with
      | nil => exact absurd hz hzne
      | cons a l => simp
    obtain ⟨hpval, hplow, hphigh⟩ := calculate_ok_bounds hval.1 hzlen hcalc
    have hpfx : s2'.subnetPrefixlen = p := by rw [hs2']
    cases hassign : assignZones s2'.availabilityZones
        (s2'.ipv4Network.subnetList s2'.subnetPrefixlen) with
    | error e =>
      rw [hassign] at h
      cases h
    | ok plans' =>
      rw [hassign] at h
      obtain ⟨⟨rfl, rfl⟩, -, -⟩ :
          (s2' = s2 ∧ plans' = plans) ∧ (get_availability_zones fetch s).2 = q ∧ true = r := by
        have h1 := congrArg Prod.fst h
        have h2 := congrArg (fun t => t.2.1) h
        have h3 := congrArg (fun t => t.2.2) h
        simp at h1 h2 h3
        exact ⟨⟨h1.1, h1.2⟩, h2, by simp [h3]⟩
      refine ⟨hnet, ?_, hazs, ?_, ?_, ?_, ?_⟩
      · rw [hazs]; exact hzlen
      · rw [hpfx, hpval, hazs]
      · rw [hpfx]; exact hplow
      · rw [hpfx]; exact hphigh
      · rw [← hnet]; exact hassign

lemma get_availability_zones_of_nonempty (fetch : List String) {t : VPCState}
    (h : t.availabilityZones ≠ []) : get_availability_zones fetch t = (t, false) := by
  unfold get_availability_zones
  rw [if_neg h]

/-! ### Claim theorems -/

/-- C1: for every valid parent network and nonempty zone list, when
`calculate_subnet_prefixlen` succeeds it returns the prefix length
`parent.prefixlen + log2(nearest_power_of_2(2 * zone count))` (with
`log2(nearest_power_of_2 n) = ceilLog2 n`), which satisfies
`2^(p - parent.prefixlen) ≥ 2 * zone count`, is the smallest such
prefix length, and subdivides the parent into equal blocks that tile it
exactly. -/
theorem calculate_prefixlen_ok_spec (parent : IPv4Network) (zones : List String)
    (p : Nat) (hval : parent.valid) (hz : 1 ≤ zones.length)
    (hok : calculate_subnet_prefixlen parent zones = .ok p) :
    p = parent.prefixlen + ceilLog2 (zones.length * 2) ∧
    (∃ t, nearest_power_of_2 (zones.length * 2) = .ok t ∧
      2 ^ (p - parent.prefixlen) = t) ∧
    2 * zones.length ≤ 2 ^ (p - parent.prefixlen) ∧
    (∀ q, 2 * zones.length ≤ 2 ^ (q - parent.prefixlen) → p ≤ q) ∧
    2 ^ (p - parent.prefixlen) * 2 ^ (32 - p) = 2 ^ (32 - parent.prefixlen) := by
  obtain ⟨hpv, hlow, hhigh⟩ := calculate_ok_bounds hval.1 hz hok
  have hsub : p - parent.prefixlen = ceilLog2 (zones.length * 2) := by omega
  refine ⟨hpv, ⟨2 ^ ceilLog2 (zones.length * 2), ?_, by rw [hsub]⟩, ?_, ?_, ?_⟩
  · unfold nearest_power_of_2
    rw [if_neg (by omega)]
  · rw [hsub]
    have := le_pow_ceilLog2 (zones.length * 2)
    omega
  · intro q hq
    by_cases hqP : parent.prefixlen ≤ q
    · have hq2 : zones.length * 2 ≤ 2 ^ (q - parent.prefixlen) := by omega
      have hcl : ceilLog2 (zones.length * 2) ≤ q - parent.prefixlen :=
        le_pow_ceilLog2_iff.mp hq2
      omega
    · exfalso
      have hq0 : q - parent.prefixlen = 0 := by omega
      rw [hq0, pow_zero] at hq
      omega
  · rw [hsub, ← pow_add]
    congr 1
    omega

unseal Rat.mul Rat.inv in
theorem calculate_prefixlen_ok_spec_witness :
    19 = (⟨167772160, 16⟩ : IPv4Network).prefixlen + ceilLog2 (3 * 2) ∧
    2 * 3 ≤ 2 ^ (19 - (⟨167772160, 16⟩ : IPv4Network).prefixlen) := by
  have h := calculate_prefixlen_ok_spec ⟨167772160, 16⟩
    ["us-east-1a", "us-east-1b", "us-east-1c"] 19 (by decide) (by decide) (by decide)
  exact ⟨h.1, h.2.2.1⟩

/-- C2 counterexample: for parent `10.0.0.0/28` and one zone the required
candidate prefix is `28 + log2(2) = 29 ≤ 32`, yet `calculate_subnet_prefixlen`
raises the NetworkTooSmall error, refuting "fails if and only if the required
candidate prefix exceeds 32". -/
theorem calculate_prefixlen_error_within_32 :
    calculate_subnet_prefixlen ⟨167772160, 28⟩ ["us-east-1a"] =
        .error .networkTooSmall ∧
      (⟨167772160, 28⟩ : IPv4Network).prefixlen + ceilLog2 (1 * 2) ≤ 32 :=
  ⟨by decide, by decide⟩

/-- C2 (amended): for every valid parent network and nonempty zone list,
`calculate_subnet_prefixlen` fails with the single NetworkTooSmall error if
and only if the required candidate prefix
`parent.prefixlen + log2(nearest_power_of_2(2 * zone count))` exceeds 28
(the code searches candidates only in `range(parent.prefixlen + 1, 29)`),
and no other error is raised. -/
theorem calculate_prefixlen_error_iff (parent : IPv4Network) (zones : List String)
    (hval : parent.valid) (hz : 1 ≤ zones.length) :
    (calculate_subnet_prefixlen parent zones = .error .networkTooSmall ↔
      28 < parent.prefixlen + ceilLog2 (zones.length * 2)) ∧
    ∀ e, calculate_subnet_prefixlen parent zones = .error e →
      e = .networkTooSmall := by
  rw [calculate_subnet_prefixlen_eq parent zones hval.1 hz]
  by_cases hc : parent.prefixlen + ceilLog2 (zones.length * 2) ≤ 28
  · rw [if_pos hc]
    constructor
    · constructor
      · intro h
        cases h
      · intro h
        omega
    · intro e h
      cases h
  · rw [if_neg hc]
    constructor
    · constructor
      · intro h
        omega
      · intro h
        rfl
    · intro e h
      cases h
      rfl

theorem calculate_prefixlen_error_iff_witness :
    calculate_subnet_prefixlen ⟨167772160, 8⟩ ["us-east-1a"] ≠
      .error .networkTooSmall := by
  intro h
  have hiff :=
    (calculate_prefixlen_error_iff ⟨167772160, 8⟩ ["us-east-1a"]
      (by decide) (by decide)).1
  exact absurd (hiff.mp h) (by decide)

/-- C3 counterexample: for parent `10.0.0.0/30` and zone count 1 the code
does NOT return prefix length 31: the candidate range `range(31, 29)` is
empty, so the division fails. -/
theorem boundary_slash30_not_31 :
    calculate_subnet_prefixlen ⟨167772160, 30⟩ ["us-east-1a"] ≠ .ok 31 := by
  decide

/-- C3 (amended): for parent `10.0.0.0/30` and zone count 1,
`calculate_subnet_prefixlen` raises the NetworkTooSmall error rather than
returning 31, because the candidate prefix lengths stop at 28. -/
theorem boundary_slash30_error :
    calculate_subnet_prefixlen ⟨167772160, 30⟩ ["us-east-1a"] =
      .error .networkTooSmall := by
  decide

/-- C9: private-subnet construction for a zone fails (and constructs
nothing) exactly when the zone's public subnet entry does not exist or
has no NAT gateway, and succeeds exactly when both exist. -/
theorem create_private_subnet_requires_public (zone : String)
    (publicEntry : Option PublicSubnetData) (ip_network : IPv4Network) :
    ((∃ e, create_private_subnet zone publicEntry ip_network = .error e) ↔
      publicEntry = none ∨
        ∃ pub, publicEntry = some pub ∧ pub.natGateway = none) ∧
    ((∃ priv, create_private_subnet zone publicEntry ip_network = .ok priv) ↔
      ∃ pub ngw, publicEntry = some pub ∧ pub.natGateway = some ngw) := by
  cases publicEntry with
  | none => simp [create_private_subnet]
  | some pub =>
    cases hng : pub.natGateway with
    | none => simp [create_private_subnet, hng]
    | some ngw => simp [create_private_subnet, hng]

/-- C10: with an empty availability-zone list (zone count 0),
`calculate_subnet_prefixlen` does not raise the NetworkTooSmall error but
fails inside `nearest_power_of_2` with the math domain error of `log(0)`;
the NetworkTooSmall taxonomy thus only covers zone counts of at least 1. -/
theorem empty_zone_list_math_domain_error :
    (∀ parent, calculate_subnet_prefixlen parent [] = .error .mathDomainError) ∧
    nearest_power_of_2 0 = .error .mathDomainError ∧
    (∀ fetch s, (get_availability_zones fetch s).1.availabilityZones = [] →
      calculate_subnet_prefixlen_state fetch s = .error .mathDomainError) ∧
    PyError.mathDomainError ≠ PyError.networkTooSmall := by
  refine ⟨fun parent => rfl, rfl, ?_, by decide⟩
  intro fetch s hz
  simp only [calculate_subnet_prefixlen_state]
  rw [hz]
  rfl

theorem empty_zone_list_math_domain_error_witness :
    calculate_subnet_prefixlen_state [] ⟨⟨167772160, 16⟩, [], 0⟩ =
      .error .mathDomainError :=
  empty_zone_list_math_domain_error.2.2.1 [] ⟨⟨167772160, 16⟩, [], 0⟩ (by decide)

/-- C4: in every Subnet Plan produced by `create_subnets`, the assigned
child networks are pairwise disjoint across all zones and roles, each is
fully contained in the parent network's address range, and all have the
same prefix length. -/
theorem create_subnets_disjoint_contained (fetch : List String)
    (s s2 : VPCState) (plans : List ZonePlan) (q r : Bool)
    (hval : s.ipv4Network.valid) (h0 : s.subnetPrefixlen = 0)
    (h : create_subnets fetch s = (.ok (s2, plans), q, r)) :
    (planNets plans).Pairwise disjointNets ∧
    (∀ c ∈ planNets plans, s.ipv4Network.contains c) ∧
    (∀ c ∈ planNets plans, c.prefixlen = s2.subnetPrefixlen) := by
  obtain ⟨hnet, hzlen, hazs, hpv, hlow, hhigh, hassign⟩ := create_subnets_ok hval h0 h
  obtain ⟨hzones, htake, hcount⟩ := assignZones_ok hassign
  have hsub : ∀ c ∈ planNets plans,
      c ∈ s.ipv4Network.subnetList s2.subnetPrefixlen := by
    intro c hc
    rw [htake] at hc
    exact List.mem_of_mem_take hc
  refine ⟨?_, ?_, ?_⟩
  · have hpw2 : (s.ipv4Network.subnetList s2.subnetPrefixlen).Pairwise disjointNets :=
      (subnetList_pairwise s.ipv4Network s2.subnetPrefixlen).imp
        (fun hab => Or.inl hab)
    rw [htake]
    exact hpw2.sublist (List.take_sublist _ _)
  · intro c hc
    exact subnetList_contained (le_of_lt hlow) (by omega) c (hsub c hc)
  · intro c hc
    exact (subnetList_mem (hsub c hc)).1

unseal Rat.mul Rat.inv in
theorem create_subnets_disjoint_contained_witness :
    (planNets
      [⟨"us-east-1a", ⟨⟨167772160, 18⟩, some "us-east-1aNATGateway"⟩,
        ⟨⟨167788544, 18⟩, "us-east-1aNATGateway"⟩⟩,
       ⟨"us-east-1b", ⟨⟨167804928, 18⟩, some "us-east-1bNATGateway"⟩,
        ⟨⟨167821312, 18⟩, "us-east-1bNATGateway"⟩⟩]).Pairwise disjointNets :=
  (create_subnets_disjoint_contained ["us-east-1a", "us-east-1b"]
    ⟨⟨167772160, 16⟩, [], 0⟩ ⟨⟨167772160, 16⟩, ["us-east-1a", "us-east-1b"], 18⟩
    [⟨"us-east-1a", ⟨⟨167772160, 18⟩, some "us-east-1aNATGateway"⟩,
      ⟨⟨167788544, 18⟩, "us-east-1aNATGateway"⟩⟩,
     ⟨"us-east-1b", ⟨⟨167804928, 18⟩, some "us-east-1bNATGateway"⟩,
      ⟨⟨167821312, 18⟩, "us-east-1bNATGateway"⟩⟩]
    true true (by decide) (by decide) (by decide)).1

/-- C5: `create_subnets` consumes the child-network sequence strictly
sequentially in increasing address order — the assigned networks are
exactly the first `2 * (number of zones)` children, zone by zone with the
public subnet before the private one, no child skipped or reused — so the
assigned addresses are strictly increasing across the plan (earlier zones
get lower addresses). -/
theorem create_subnets_sequential (fetch : List String)
    (s s2 : VPCState) (plans : List ZonePlan) (q r : Bool)
    (hval : s.ipv4Network.valid) (h0 : s.subnetPrefixlen = 0)
    (h : create_subnets fetch s = (.ok (s2, plans), q, r)) :
    plans.map ZonePlan.zone = (get_availability_zones fetch s).1.availabilityZones ∧
    planNets plans =
      (s.ipv4Network.subnetList s2.subnetPrefixlen).take (2 * plans.length) ∧
    (planNets plans).Pairwise (fun a b => a.address < b.address) := by
  obtain ⟨hnet, hzlen, hazs, hpv, hlow, hhigh, hassign⟩ := create_subnets_ok hval h0 h
  obtain ⟨hzones, htake, hcount⟩ := assignZones_ok hassign
  have hlenp : plans.length = s2.availabilityZones.length := by
    rw [← hzones, List.length_map]
  refine ⟨by rw [hzones, hazs], by rw [htake, hlenp], ?_⟩
  have hpw2 : (s.ipv4Network.subnetList s2.subnetPrefixlen).Pairwise
      (fun a b => a.address < b.address) :=
    (subnetList_pairwise s.ipv4Network s2.subnetPrefixlen).imp
      (fun hab => by
        rename_i a b
        have hpos : 0 < a.num_addresses := by
          unfold IPv4Network.num_addresses
          positivity
        omega)
  rw [htake]
  exact hpw2.sublist (List.take_sublist _ _)

unseal Rat.mul Rat.inv in
theorem create_subnets_sequential_witness :
    [(⟨"us-east-1a", ⟨⟨167772160, 18⟩, some "us-east-1aNATGateway"⟩,
        ⟨⟨167788544, 18⟩, "us-east-1aNATGateway"⟩⟩ : ZonePlan),
      ⟨"us-east-1b", ⟨⟨167804928, 18⟩, some "us-east-1bNATGateway"⟩,
        ⟨⟨167821312, 18⟩, "us-east-1bNATGateway"⟩⟩].map ZonePlan.zone =
      (get_availability_zones ["us-east-1a", "us-east-1b"]
        ⟨⟨167772160, 16⟩, [], 0⟩).1.availabilityZones :=
  (create_subnets_sequential ["us-east-1a", "us-east-1b"]
    ⟨⟨167772160, 16⟩, [], 0⟩ ⟨⟨167772160, 16⟩, ["us-east-1a", "us-east-1b"], 18⟩
    [⟨"us-east-1a", ⟨⟨167772160, 18⟩, some "us-east-1aNATGateway"⟩,
      ⟨⟨167788544, 18⟩, "us-east-1aNATGateway"⟩⟩,
     ⟨"us-east-1b", ⟨⟨167804928, 18⟩, some "us-east-1bNATGateway"⟩,
      ⟨⟨167821312, 18⟩, "us-east-1bNATGateway"⟩⟩]
    true true (by decide) (by decide) (by decide)).1

/-- C7: `calculate_subnet_prefixlen` is deterministic — it depends only on
the parent network and the zone count, so any two zone lists of equal
length give identical results — and idempotent: once the stateful
computation has succeeded, running it again on the resulting session state
returns that state unchanged; likewise rerunning `create_subnets` on the
state a successful run produced (for a valid parent) yields the same
state and the same Subnet Plan. -/
theorem calculate_prefixlen_idempotent :
    (∀ parent (zones1 zones2 : List String), zones1.length = zones2.length →
      calculate_subnet_prefixlen parent zones1 =
        calculate_subnet_prefixlen parent zones2) ∧
    (∀ fetch s s2, calculate_subnet_prefixlen_state fetch s = .ok s2 →
      calculate_subnet_prefixlen_state fetch s2 = .ok s2) ∧
    (∀ fetch s s2 plans q r, s.ipv4Network.valid →
      create_subnets fetch s = (.ok (s2, plans), q, r) →
      ∃ q2 r2, create_subnets fetch s2 = (.ok (s2, plans), q2, r2)) := by
  refine ⟨?_, ?_, ?_⟩
  · intro parent zones1 zones2 hl
    simp only [calculate_subnet_prefixlen, hl]
  · intro fetch s s2 h
    obtain ⟨p, hcalc, hs2⟩ := calculate_state_ok h
    have hzne : (get_availability_zones fetch s).1.availabilityZones ≠ [] :=
      calculate_ok_zones_nonempty hcalc
    subst hs2
    simp only [calculate_subnet_prefixlen_state]
    rw [get_availability_zones_of_nonempty fetch (by simpa using hzne)]
    dsimp only
    rw [hcalc]
  · intro fetch s s2 plans qq rr hval h
    by_cases h0 : s.subnetPrefixlen = 0
    · obtain ⟨hnet, hzlen, hazs, hpv, hlow, hhigh, hassign⟩ :=
        create_subnets_ok hval h0 h
      refine ⟨false, false, ?_⟩
      have hzne : s2.availabilityZones ≠ [] := by
        cases hne : s2.availabilityZones with
        | nil => rw [hne] at hzlen; simp at hzlen
        | cons a l => simp
      simp only [create_subnets]
      rw [get_availability_zones_of_nonempty fetch hzne]
      dsimp only
      rw [if_neg (by omega)]
      dsimp only
      rw [show s2.ipv4Network.subnetList s2.subnetPrefixlen =
          s.ipv4Network.subnetList s2.subnetPrefixlen by rw [hnet]]
      rw [hassign]
    · have h1 : (get_availability_zones fetch s).1.subnetPrefixlen ≠ 0 := by
        rw [get_availability_zones_prefixlen]
        exact h0
      simp only [create_subnets] at h
      rw [if_neg h1] at h
      dsimp only at h
      cases hassign : assignZones (get_availability_zones fetch s).1.availabilityZones
          ((get_availability_zones fetch s).1.ipv4Network.subnetList
            (get_availability_zones fetch s).1.subnetPrefixlen) with
      | error e => rw [hassign] at h; cases h
      | ok plans' =>
        rw [hassign] at h
        simp only [Prod.mk.injEq, Except.ok.injEq] at h
        obtain ⟨⟨hs2eq, hpl⟩, -, -⟩ := h
        subst hs2eq
        subst hpl
        refine ⟨(get_availability_zones fetch
          (get_availability_zones fetch s).1).2, false, ?_⟩
        simp only [create_subnets]
        rw [show (get_availability_zones fetch
            (get_availability_zones fetch s).1) =
          ((get_availability_zones fetch (get_availability_zones fetch s).1).1,
            (get_availability_zones fetch (get_availability_zones fetch s).1).2)
          from rfl]
        rw [get_availability_zones_fst_idem]
        rw [if_neg h1]
        dsimp only
        rw [hassign]

unseal Rat.mul Rat.inv in
theorem calculate_prefixlen_idempotent_witness :
    calculate_subnet_prefixlen_state ["us-east-1a"]
        ⟨⟨167772160, 16⟩, ["us-east-1a"], 17⟩ =
      .ok ⟨⟨167772160, 16⟩, ["us-east-1a"], 17⟩ :=
  calculate_prefixlen_idempotent.2.1 ["us-east-1a"] ⟨⟨167772160, 16⟩, [], 0⟩
    ⟨⟨167772160, 16⟩, ["us-east-1a"], 17⟩ (by decide)

/-- C8: once the availability-zone list is non-empty,
`get_availability_zones` returns the cached list unchanged without issuing
the query; and once a subnet prefix length has been established (non-zero),
`create_subnets` skips recomputing it (the recomputation flag is false and
any successful run keeps the stored prefix length). -/
theorem availability_zones_cached (fetch : List String) (s : VPCState) :
    (s.availabilityZones ≠ [] → get_availability_zones fetch s = (s, false)) ∧
    (s.subnetPrefixlen ≠ 0 →
      (create_subnets fetch s).2.2 = false ∧
      ∀ s2 plans q r, create_subnets fetch s = (.ok (s2, plans), q, r) →
        s2.subnetPrefixlen = s.subnetPrefixlen) := by
  constructor
  · intro h
    exact get_availability_zones_of_nonempty fetch h
  · intro h
    have h1 : (get_availability_zones fetch s).1.subnetPrefixlen ≠ 0 := by
      rw [get_availability_zones_prefixlen]
      exact h
    constructor
    · simp only [create_subnets]
      rw [if_neg h1]
      dsimp only
      cases hassign : assignZones (get_availability_zones fetch s).1.availabilityZones
          ((get_availability_zones fetch s).1.ipv4Network.subnetList
            (get_availability_zones fetch s).1.subnetPrefixlen) with
      | error e => rfl
      | ok plans' => rfl
    · intro s2 plans q r hcr
      simp only [create_subnets] at hcr
      rw [if_neg h1] at hcr
      dsimp only at hcr
      cases hassign : assignZones (get_availability_zones fetch s).1.availabilityZones
          ((get_availability_zones fetch s).1.ipv4Network.subnetList
            (get_availability_zones fetch s).1.subnetPrefixlen) with
      | error e => rw [hassign] at hcr; cases hcr
      | ok plans' =>
        rw [hassign] at hcr
        simp only [Prod.mk.injEq, Except.ok.injEq] at hcr
        obtain ⟨⟨hs2eq, -⟩, -, -⟩ := hcr
        rw [← hs2eq, get_availability_zones_prefixlen]

theorem availability_zones_cached_witness :
    get_availability_zones ["us-east-1b"] ⟨⟨167772160, 16⟩, ["us-east-1a"], 18⟩ =
        (⟨⟨167772160, 16⟩, ["us-east-1a"], 18⟩, false) ∧
      (create_subnets ["us-east-1b"]
        ⟨⟨167772160, 16⟩, ["us-east-1a"], 18⟩).2.2 = false :=
  ⟨(availability_zones_cached ["us-east-1b"]
      ⟨⟨167772160, 16⟩, ["us-east-1a"], 18⟩).1 (by decide),
    ((availability_zones_cached ["us-east-1b"]
      ⟨⟨167772160, 16⟩, ["us-east-1a"], 18⟩).2 (by decide)).1⟩

/-- C6: under the exact-logarithm model of `math.log`, `nearest_power_of_2`
returns the smallest power of two that is at least its positive argument
(and the argument itself when it is already a power of two).  This is the
intended behaviour the spec states; CPython's floating-point
`math.log(n, 2)` deviates from the exact logarithm for the first time at
`n = 2^29`, where the real code returns `2^30` instead (see the
accompanying analysis), so this theorem documents the intent the code
misses at that input. -/
theorem nearest_power_of_2_spec (n : Nat) (hn : 1 ≤ n) :
    ∃ t, nearest_power_of_2 n = .ok t ∧
      n ≤ t ∧ (∃ k, t = 2 ^ k) ∧
      (∀ m, n ≤ 2 ^ m → t ≤ 2 ^ m) ∧
      ((∃ k, n = 2 ^ k) → t = n) := by
  refine ⟨2 ^ ceilLog2 n, ?_, le_pow_ceilLog2 n, ⟨ceilLog2 n, rfl⟩, ?_, ?_⟩
  · unfold nearest_power_of_2
    rw [if_neg (by omega)]
  · intro m hm
    exact Nat.pow_le_pow_right (by norm_num) (le_pow_ceilLog2_iff.mp hm)
  · rintro ⟨k, rfl⟩
    have h1 : ceilLog2 (2 ^ k) ≤ k := le_pow_ceilLog2_iff.mp le_rfl
    have h2 : 2 ^ k ≤ 2 ^ ceilLog2 (2 ^ k) := le_pow_ceilLog2 (2 ^ k)
    have h3 : 2 ^ ceilLog2 (2 ^ k) ≤ 2 ^ k := Nat.pow_le_pow_right (by norm_num) h1
    omega

theorem nearest_power_of_2_spec_witness : nearest_power_of_2 4 = .ok 4 := by
  obtain ⟨t, ht, -, -, -, hp⟩ := nearest_power_of_2_spec 4 (by decide)
  rw [hp ⟨2, rfl⟩] at ht
  exact ht
